import Mathlib

/-!
# Verification of `mf_triage.py`

A shallow embedding of `src/mf_triage.py`, a thin wrapper that locates a
Volatility 3 executable, runs a list of plugins against a memory image,
captures the combined output of each plugin into a per-plugin file, and writes an
`INDEX.md` summary into the case directory.

The embedding models the observable behaviour of the program as a trace of
filesystem and console events together with a process exit code.  Results of
interactions with the outside world (probing candidate commands, the wall
clock timestamp, child process return codes) are supplied by an `Env` oracle.
Paths are POSIX strings joined with `"/"`, exactly as `pathlib` renders the
paths this program builds.
-/

namespace MFTriage

/-- Outcome of probing one candidate command with
`subprocess.run([c, "-h"], stdout=PIPE, stderr=PIPE)` inside `find_vol`:
the spawn can raise `FileNotFoundError` (the only exception the source
catches), raise some other `OSError`, or start a child that exits with a
return code. -/
inductive ProbeOutcome
  | fileNotFound
  | otherOSError
  | exits (code : Int)
deriving DecidableEq

/-- Constant `DEFAULT_PLUGINS` from `src/mf_triage.py`. -/
def DEFAULT_PLUGINS : List String :=
  ["windows.pslist",
   "windows.pstree",
   "windows.netscan",
   "windows.dlllist",
   "windows.cmdline",
   "windows.malfind"]

/-- Constant `CANDIDATE_CMDS` from `src/mf_triage.py`. -/
def CANDIDATE_CMDS : List String := ["vol", "vol.py", "volatility3"]

/-- Acceptance test of the source on the return code of a probe:
`r.returncode in (0, 1)`. -/
def acceptableCode (k : Int) : Bool := k == 0 || k == 1

/-- A probe outcome counts as "tool present" when the child started and its
return code passed `acceptableCode`. -/
def acceptableOutcome : ProbeOutcome → Bool
  | .exits k => acceptableCode k
  | _ => false

/-- Function `find_vol` from `src/mf_triage.py`, its `for` loop made explicit as
recursion over the remaining candidates.  `Except.error ()` models an
exception escaping the function uncaught: the `try` of the source catches only
`FileNotFoundError` (which `continue`s to the next candidate), so any other
`OSError` raised while spawning a probe propagates. -/
def find_volFrom (probe : String → ProbeOutcome) : List String → Except Unit (Option String)
  | [] => .ok none
  | c :: cs =>
    match probe c with
    | .fileNotFound => find_volFrom probe cs
    | .otherOSError => .error ()
    | .exits k => if acceptableCode k then .ok (some c) else find_volFrom probe cs

/-- Call `find_vol()` iterates over `CANDIDATE_CMDS` and returns `None` when the
loop falls through. -/
def find_vol (probe : String → ProbeOutcome) : Except Unit (Option String) :=
  find_volFrom probe CANDIDATE_CMDS

/-- Spec-side locator, written from the words of the spec: "the first candidate
whose process starts successfully and exits with a small fixed set of
acceptable codes ... is returned as the resolved command", `none` when no
candidate qualifies.  Used only to compare against `find_vol`. -/
def find_vol_spec (probe : String → ProbeOutcome) (cands : List String) : Option String :=
  cands.find? fun c => acceptableOutcome (probe c)

/-- Where a child process stream is pointed, mirroring the keyword arguments
the source passes to `subprocess.run`. -/
inductive Redirect
  | piped
  | toFile (path : String)
  | mergedToStdout
deriving DecidableEq

/-- One observable effect of the program on the filesystem or the console.

* `mkdirParents p` — `Path(p).mkdir(parents=True, exist_ok=True)`
* `mkdirExistOk p` — `Path(p).mkdir(exist_ok=True)`
* `openTrunc p` — `open(p, "w", ...)`: create the file, truncating any
  previous content
* `spawnWait as o e` — `subprocess.run(as, stdout=o, stderr=e)`: spawn the
  child and block until it completes
* `closeFile p` — the file handle closing when the `with` block ends
* `writeText p c` — `Path(p).write_text(c)`: replace the whole file content
* `printOut m` / `printErr m` — a line printed to standard output / error
-/
inductive Event
  | mkdirParents (path : String)
  | mkdirExistOk (path : String)
  | openTrunc (path : String)
  | spawnWait (args : List String) (out err : Redirect)
  | closeFile (path : String)
  | writeText (path : String) (content : String)
  | printOut (msg : String)
  | printErr (msg : String)
deriving DecidableEq

/-- The oracle for the interactions of the program with the outside world:
`probe c` is what happens when `find_vol` probes candidate `c` (those probes
spawn `[c, "-h"]` with both streams piped and create no filesystem entries),
`stamp` is the `time.strftime("%Y%m%d-%H%M%S")` result, and `exec args` is
the return code of the child process spawned with argument list `args` in
`run_plugin`. -/
structure Env where
  probe : String → ProbeOutcome
  stamp : String
  exec : List String → Int

/-- The parsed command line: the `--file`, `--outdir` and `--plugins` flags. -/
structure Args where
  file : String
  outdir : String
  plugins : List String
deriving DecidableEq

/-- Parsing with `argparse`: `--plugins` falls back to `DEFAULT_PLUGINS` when the
flag is absent. -/
def mkArgs (file outdir : String) (plugins : Option (List String)) : Args :=
  { file := file, outdir := outdir, plugins := plugins.getD DEFAULT_PLUGINS }

/-- Models the Python expression `plg.replace(".", "_")`: with a
single-character pattern every occurrence of `'.'` is replaced by `'_'`,
character by character. -/
def sanitizeChars (cs : List Char) : List Char :=
  cs.map fun c => if c = '.' then '_' else c

/-- Assignment `safe = plg.replace(".", "_")` as a `String` operation. -/
def sanitize (s : String) : String := ⟨sanitizeChars s.data⟩

/-- The `CompletedProcess` value `subprocess.run` hands back; the source only
ever ignores it, so just the return code is kept. -/
structure Completed where
  returncode : Int
deriving DecidableEq

/-- The extra arguments `run_plugin` appends: `if kargs: args += kargs`, so a
missing or empty `kargs` contributes nothing. -/
def extraArgs : Option (List String) → List String
  | some ks => ks
  | none => []

/-- Function `run_plugin` from `src/mf_triage.py`: build the argument list, open the
output file truncating (`open(outpath, "w", encoding="utf-8",
errors="ignore")`), run the child with `stdout=f, stderr=subprocess.STDOUT`
to completion, and close the file.  Returns the emitted events together with
the `CompletedProcess` result, which the caller never inspects. -/
def run_plugin (exec : List String → Int) (volcmd img plugin outpath : String)
    (kargs : Option (List String)) : List Event × Completed :=
  let args0 := [volcmd, "-f", img, plugin]
  let args :=
    match kargs with
    | some ks => if ks.isEmpty then args0 else args0 ++ ks
    | none => args0
  ([Event.openTrunc outpath,
    Event.spawnWait args (Redirect.toFile outpath) Redirect.mergedToStdout,
    Event.closeFile outpath],
   ⟨exec args⟩)

/-- The message printed to standard error when no candidate works. -/
def volNotFoundMsg : String :=
  "[!] Could not find Volatility 3 (tried: vol, vol.py, volatility3). Add it to PATH."

/-- The static review-hints block: the triple-quoted literal of the source after
`textwrap.dedent(...).strip()`. -/
def hintsText : String :=
  "## Quick Review Hints\n- pslist / pstree: odd parent-child pairs, short-lived procs, unusual names.\n- netscan: unexpected outbound connections, high ports, shells with net.\n- dlllist: unsigned or unusual DLL paths in user-writable dirs.\n- cmdline: suspicious flags, base64 strings, LOLBins.\n- malfind: injected code regions (follow up only in a lab environment)."

/-- Path `outdir` joined with `raw`, as a POSIX path string. -/
def rawDir (outdir : String) : String := outdir ++ "/raw"

/-- Path of the per-plugin capture file under the raw subdirectory. -/
def pluginTarget (outdir plg : String) : String :=
  rawDir outdir ++ "/" ++ (sanitize plg ++ ".txt")

/-- Path of the index file in the case directory. -/
def indexPath (outdir : String) : String := outdir ++ "/INDEX.md"

/-- The initial `summary` list built in `main` before the plugin loop. -/
def summaryHeader (stamp file vol : String) (plugins : List String) : List String :=
  ["# Memory Forensics Triage — " ++ stamp,
   "- Image: `" ++ file ++ "`",
   "- Volatility: `" ++ vol ++ "`",
   "- Plugins: " ++ String.intercalate ", " plugins,
   "",
   "## Outputs"]

/-- The line appended to `summary` for one plugin. -/
def outputLine (outdir plg : String) : String :=
  "- `" ++ pluginTarget outdir plg ++ "`"

/-- The full `summary` list after the loop: header block, then one line per
plugin in supplied order. -/
def summaryLines (stamp file vol outdir : String) (plugins : List String) : List String :=
  summaryHeader stamp file vol plugins ++ plugins.map (outputLine outdir)

/-- The document written to `INDEX.md`:
`"\n".join(summary) + "\n\n" + hints + "\n"`. -/
def indexDoc (stamp file vol outdir : String) (plugins : List String) : String :=
  String.intercalate "\n" (summaryLines stamp file vol outdir plugins) ++ "\n\n"
    ++ hintsText ++ "\n"

/-- One iteration of the plugin loop in `main`: the progress line printed to
standard output, then the events of `run_plugin` (called with its default
`kargs=None`). -/
def pluginEvents (exec : List String → Int) (vol file outdir plg : String) : List Event :=
  Event.printOut ("[*] Running " ++ plg ++ " → " ++ pluginTarget outdir plg) ::
    (run_plugin exec vol file plg (pluginTarget outdir plg) none).1

/-- All events of the plugin loop, in supplied plugin order. -/
def loopEvents (exec : List String → Int) (vol file outdir : String)
    (plugins : List String) : List Event :=
  plugins.flatMap (pluginEvents exec vol file outdir)

/-- How a run of `main` ends: a normal `sys.exit`-style termination with a
trace of events and an exit code, or a crash from an uncaught exception. -/
inductive RunOutcome
  | exits (trace : List Event) (code : Int)
  | crash (trace : List Event)
deriving DecidableEq

/-- The events a run emitted, however it ended. -/
def traceOf : RunOutcome → List Event
  | .exits t _ => t
  | .crash t => t

/-- The process exit code, `none` when the run crashed with a traceback. -/
def exitCode : RunOutcome → Option Int
  | .exits _ c => some c
  | .crash _ => none

/-- Everything `main` does once a tool `vol` was resolved: make the case
directory and its `raw/` subdirectory, run every plugin in order, write
`INDEX.md`, print the closing line. -/
def successTrace (env : Env) (args : Args) (vol : String) : List Event :=
  [Event.mkdirParents args.outdir, Event.mkdirExistOk (rawDir args.outdir)]
    ++ loopEvents env.exec vol args.file args.outdir args.plugins
    ++ [Event.writeText (indexPath args.outdir)
          (indexDoc env.stamp args.file vol args.outdir args.plugins),
        Event.printOut ("[✓] Case saved to: " ++ args.outdir)]

/-- Function `main()` from `src/mf_triage.py` over parsed arguments.  `if not vol:`
tests Python truthiness, so it also fires on an empty string (unreachable,
since `find_vol` only ever returns `None` or one of the fixed non-empty
candidates).  On success the run emits `successTrace` and exits 0. -/
def main (env : Env) (args : Args) : RunOutcome :=
  match find_vol env.probe with
  | .error _ => .crash []
  | .ok none => .exits [Event.printErr volNotFoundMsg] 2
  | .ok (some vol) =>
    if vol = "" then .exits [Event.printErr volNotFoundMsg] 2
    else .exits (successTrace env args vol) 0

/-- Returns `true` on events that touch the filesystem (directory creation, file
creation or writing, child processes); `false` on console output. -/
def isFsEvent : Event → Bool
  | .printOut _ => false
  | .printErr _ => false
  | _ => true

/-- The path a filesystem event touches, when it touches one.  A spawned
child whose standard output is redirected into a file writes to that file. -/
def eventPath : Event → Option String
  | .mkdirParents p => some p
  | .mkdirExistOk p => some p
  | .openTrunc p => some p
  | .spawnWait _ (Redirect.toFile p) _ => some p
  | .spawnWait _ _ _ => none
  | .closeFile p => some p
  | .writeText p _ => some p
  | .printOut _ => none
  | .printErr _ => none

/-- Selects truncate-on-create file openings. -/
def openTruncPath : Event → Option String
  | .openTrunc p => some p
  | _ => none

/-- Selects whole-file text writes, with path and content. -/
def writeTextEvent? : Event → Option (String × String)
  | .writeText p c => some (p, c)
  | _ => none

/-- The plugin name of a spawned analysis child: position 3 of the argument
list `[cmd, "-f", img, plugin, ...]`. -/
def spawnedPlugin? : Event → Option String
  | .spawnWait args _ _ => args[3]?
  | _ => none

/-! Concrete fixtures used to evaluate the theorems on closed inputs. -/

/-- A machine where `vol` is absent and `vol.py` answers its help probe with
exit code 1 (usage shown). -/
def probeVolPyOk : String → ProbeOutcome := fun c =>
  if c = "vol" then ProbeOutcome.fileNotFound
  else if c = "vol.py" then ProbeOutcome.exits 1
  else ProbeOutcome.exits 0

/-- A machine where no candidate command exists. -/
def probeAllMissing : String → ProbeOutcome := fun _ => ProbeOutcome.fileNotFound

/-- A machine where `vol` is absent and probing `vol.py` raises an `OSError`
other than `FileNotFoundError` (say, a permission error). -/
def probeSecondBlocked : String → ProbeOutcome := fun c =>
  if c = "vol" then ProbeOutcome.fileNotFound
  else if c = "vol.py" then ProbeOutcome.otherOSError
  else ProbeOutcome.exits 0

/-- A machine where every candidate answers its probe with exit code 0. -/
def envFound : Env := ⟨fun _ => ProbeOutcome.exits 0, "20240101-000000", fun _ => 0⟩

/-- Same machine as `envFound` except every plugin child fails with code 77. -/
def envFound77 : Env := ⟨fun _ => ProbeOutcome.exits 0, "20240101-000000", fun _ => 77⟩

/-- A machine with no analysis tool at all. -/
def envMissing : Env := ⟨probeAllMissing, "20240101-000000", fun _ => 0⟩

/-- A machine whose second candidate probe raises a non-FileNotFound error. -/
def envBlocked : Env := ⟨probeSecondBlocked, "20240101-000000", fun _ => 0⟩

/-- A one-plugin invocation. -/
def argsOne : Args := mkArgs "mem.raw" "out" (some ["windows.pslist"])

/-- The invocation of the scenario in the spec: no explicit plugin list. -/
def args08 : Args := mkArgs "mem.raw" "cases/CASE001" none

end MFTriage

namespace MFTriage

/-! ## Helper lemmas -/

lemma find_volFrom_ok_mem {probe : String → ProbeOutcome} {l : List String} {c : String}
    (h : find_volFrom probe l = .ok (some c)) : c ∈ l := by
  induction l with
  | nil => simp [find_volFrom] at h
  | cons a l ih =>
    cases hpa : probe a with
    | fileNotFound =>
      simp only [find_volFrom, hpa] at h
      exact List.mem_cons_of_mem _ (ih h)
    | otherOSError =>
      simp only [find_volFrom, hpa] at h
      exact absurd h (by simp)
    | exits k =>
      simp only [find_volFrom, hpa] at h
      by_cases hk : acceptableCode k = true
      · rw [if_pos hk] at h
        simp only [Except.ok.injEq, Option.some.injEq] at h
        exact h ▸ List.mem_cons_self _ _
      · rw [if_neg hk] at h
        exact List.mem_cons_of_mem _ (ih h)

lemma find_volFrom_no_oserror {probe : String → ProbeOutcome} {l : List String}
    (h : ∀ c ∈ l, probe c ≠ ProbeOutcome.otherOSError) :
    find_volFrom probe l = .ok (find_vol_spec probe l) := by
  induction l with
  | nil => rfl
  | cons a l ih =>
    cases hpa : probe a with
    | fileNotFound =>
      rw [find_vol_spec,
        @List.find?_cons_of_neg _ (fun x => acceptableOutcome (probe x)) a l
          (by simp [hpa, acceptableOutcome])]
      simp only [find_volFrom, hpa]
      exact ih fun c hc => h c (List.mem_cons_of_mem _ hc)
    | otherOSError => exact absurd hpa (h a (List.mem_cons_self _ _))
    | exits k =>
      by_cases hk : acceptableCode k = true
      · rw [find_vol_spec,
          @List.find?_cons_of_pos _ (fun x => acceptableOutcome (probe x)) a l
            (by simp [hpa, acceptableOutcome, hk])]
        simp only [find_volFrom, hpa, if_pos hk]
      · rw [find_vol_spec,
          @List.find?_cons_of_neg _ (fun x => acceptableOutcome (probe x)) a l
            (by simp [hpa, acceptableOutcome, hk])]
        simp only [find_volFrom, hpa, if_neg hk]
        exact ih fun c hc => h c (List.mem_cons_of_mem _ hc)

lemma find_vol_spec_none_iff {probe : String → ProbeOutcome} {l : List String} :
    find_vol_spec probe l = none ↔ ∀ c ∈ l, acceptableOutcome (probe c) = false := by
  rw [find_vol_spec, List.find?_eq_none]
  simp

lemma find_vol_spec_some_iff {probe : String → ProbeOutcome} {l : List String} {c : String} :
    find_vol_spec probe l = some c ↔
      ∃ l1 l2, l = l1 ++ c :: l2 ∧ acceptableOutcome (probe c) = true
        ∧ ∀ b ∈ l1, acceptableOutcome (probe b) = false := by
  induction l with
  | nil =>
    constructor
    · intro h; simp [find_vol_spec] at h
    · rintro ⟨l1, l2, h, -, -⟩
      exact absurd h (by cases l1 <;> simp)
  | cons a l ih =>
    by_cases hpa : acceptableOutcome (probe a) = true
    · rw [find_vol_spec,
        @List.find?_cons_of_pos _ (fun x => acceptableOutcome (probe x)) a l hpa]
      constructor
      · intro h
        simp only [Option.some.injEq] at h
        exact ⟨[], l, by simp [h], h ▸ hpa, by simp⟩
      · rintro ⟨l1, l2, hsplit, hc, hall⟩
        cases l1 with
        | nil => simp only [List.nil_append, List.cons.injEq] at hsplit; rw [hsplit.1]
        | cons b l1t =>
          simp only [List.cons_append, List.cons.injEq] at hsplit
          have hb := hall b (List.mem_cons_self _ _)
          rw [← hsplit.1] at hb
          exact absurd hpa (by simp [hb])
    · have hpa' : acceptableOutcome (probe a) = false := by
        revert hpa; cases acceptableOutcome (probe a) <;> simp
      rw [find_vol_spec,
        @List.find?_cons_of_neg _ (fun x => acceptableOutcome (probe x)) a l (by simp [hpa'])]
      rw [show (List.find? (fun x => acceptableOutcome (probe x)) l = some c)
            = (find_vol_spec probe l = some c) from rfl, ih]
      constructor
      · rintro ⟨l1, l2, rfl, hc, hall⟩
        refine ⟨a :: l1, l2, by simp, hc, ?_⟩
        intro b hb
        rcases List.mem_cons.mp hb with rfl | hb'
        · exact hpa'
        · exact hall b hb'
      · rintro ⟨l1, l2, hsplit, hc, hall⟩
        cases l1 with
        | nil =>
          simp only [List.nil_append, List.cons.injEq] at hsplit
          rw [hsplit.1] at hpa'
          exact absurd hc (by simp [hpa'])
        | cons b l1t =>
          simp only [List.cons_append, List.cons.injEq] at hsplit
          exact ⟨l1t, l2, hsplit.2, hc, fun x hx => hall x (List.mem_cons_of_mem _ hx)⟩

lemma find_vol_ne_empty {probe : String → ProbeOutcome} {c : String}
    (h : find_vol probe = .ok (some c)) : c ≠ "" := by
  have hmem := find_volFrom_ok_mem h
  rw [CANDIDATE_CMDS] at hmem
  simp only [List.mem_cons, List.not_mem_nil, or_false] at hmem
  rcases hmem with rfl | rfl | rfl
  · decide
  · decide
  · decide

lemma main_found {env : Env} {args : Args} {vol : String}
    (h : find_vol env.probe = .ok (some vol)) :
    main env args = RunOutcome.exits (successTrace env args vol) 0 := by
  simp only [main, h]
  rw [if_neg (find_vol_ne_empty h)]

end MFTriage

namespace MFTriage

lemma run_plugin_fst (exec : List String → Int) (vol file plg target : String) :
    (run_plugin exec vol file plg target none).1
      = [Event.openTrunc target,
         Event.spawnWait [vol, "-f", file, plg] (Redirect.toFile target)
           Redirect.mergedToStdout,
         Event.closeFile target] := rfl

lemma pluginEvents_def (exec : List String → Int) (vol file outdir plg : String) :
    pluginEvents exec vol file outdir plg
      = [Event.printOut ("[*] Running " ++ plg ++ " → " ++ pluginTarget outdir plg),
         Event.openTrunc (pluginTarget outdir plg),
         Event.spawnWait [vol, "-f", file, plg] (Redirect.toFile (pluginTarget outdir plg))
           Redirect.mergedToStdout,
         Event.closeFile (pluginTarget outdir plg)] := rfl

lemma loopEvents_exec_irrel (e1 e2 : List String → Int) (vol file outdir : String)
    (plugins : List String) :
    loopEvents e1 vol file outdir plugins = loopEvents e2 vol file outdir plugins := rfl

lemma loopEvents_filterMap_openTrunc (exec : List String → Int) (vol file outdir : String)
    (plugins : List String) :
    (loopEvents exec vol file outdir plugins).filterMap openTruncPath
      = plugins.map (pluginTarget outdir) := by
  induction plugins with
  | nil => rfl
  | cons p ps ih =>
    simp only [loopEvents] at ih ⊢
    rw [List.flatMap_cons, List.filterMap_append, ih, pluginEvents_def]
    rfl

lemma loopEvents_filterMap_spawned (exec : List String → Int) (vol file outdir : String)
    (plugins : List String) :
    (loopEvents exec vol file outdir plugins).filterMap spawnedPlugin? = plugins := by
  induction plugins with
  | nil => rfl
  | cons p ps ih =>
    simp only [loopEvents] at ih ⊢
    rw [List.flatMap_cons, List.filterMap_append, ih, pluginEvents_def]
    rfl

lemma loopEvents_filterMap_writeText (exec : List String → Int) (vol file outdir : String)
    (plugins : List String) :
    (loopEvents exec vol file outdir plugins).filterMap writeTextEvent? = [] := by
  induction plugins with
  | nil => rfl
  | cons p ps ih =>
    simp only [loopEvents] at ih ⊢
    rw [List.flatMap_cons, List.filterMap_append, ih, pluginEvents_def]
    rfl

lemma loopEvents_mem_path {exec : List String → Int} {vol file outdir : String}
    {plugins : List String} {e : Event} (he : e ∈ loopEvents exec vol file outdir plugins)
    {q : String} (hq : eventPath e = some q) :
    ∃ plg ∈ plugins, q = pluginTarget outdir plg := by
  induction plugins with
  | nil => simp [loopEvents] at he
  | cons p ps ih =>
    simp only [loopEvents, List.flatMap_cons, List.mem_append] at he
    rcases he with hblock | hrest
    · rw [pluginEvents_def] at hblock
      simp only [List.mem_cons, List.not_mem_nil, or_false] at hblock
      rcases hblock with rfl | rfl | rfl | rfl
      · simp [eventPath] at hq
      · simp only [eventPath, Option.some.injEq] at hq
        exact ⟨p, List.mem_cons_self _ _, hq.symm⟩
      · simp only [eventPath, Option.some.injEq] at hq
        exact ⟨p, List.mem_cons_self _ _, hq.symm⟩
      · simp only [eventPath, Option.some.injEq] at hq
        exact ⟨p, List.mem_cons_self _ _, hq.symm⟩
    · obtain ⟨plg, hplg, hq'⟩ := ih hrest
      exact ⟨plg, List.mem_cons_of_mem _ hplg, hq'⟩

lemma outdir_ne_indexPath (outdir : String) : outdir ≠ indexPath outdir := by
  intro h
  have hl := congrArg String.length h
  rw [indexPath, String.length_append] at hl
  have h9 : ("/INDEX.md" : String).length = 9 := by decide
  omega

lemma rawDir_ne_indexPath (outdir : String) : rawDir outdir ≠ indexPath outdir := by
  intro h
  have hd := congrArg String.data h
  rw [rawDir, indexPath, String.data_append, String.data_append] at hd
  exact absurd (List.append_cancel_left hd) (by decide)

lemma pluginTarget_ne_indexPath (outdir plg : String) :
    pluginTarget outdir plg ≠ indexPath outdir := by
  intro h
  have hd := congrArg String.data h
  simp only [pluginTarget, rawDir, indexPath, String.data_append, List.append_assoc] at hd
  have h2 := List.append_cancel_left hd
  have hlen := congrArg List.length h2
  simp only [List.length_append] at hlen
  have h4 : ("/raw" : String).data.length = 4 := by decide
  have h1 : ("/" : String).data.length = 1 := by decide
  have ht : ((".txt" : String)).data.length = 4 := by decide
  have h9 : ("/INDEX.md" : String).data.length = 9 := by decide
  rw [h4, h1, ht, h9] at hlen
  have hz : (sanitize plg).data.length = 0 := by omega
  rw [List.length_eq_zero] at hz
  rw [hz] at h2
  exact absurd h2 (by decide)

end MFTriage

namespace MFTriage

/-! ## Claims -/

/-- Claim C1: if every candidate analysis tool either fails to start or exits
with an unacceptable code, `main` prints the guidance message (which tells the
user to add the tool to the search path) to standard error, exits with the
designated "not found" code 2, and performs no filesystem work at all: no
case directory, raw subdirectory, per-plugin file, or index file is touched
before the run aborts. -/
theorem c1_tool_not_found_aborts_without_output (env : Env) (args : Args)
    (h : ∀ c ∈ CANDIDATE_CMDS,
      env.probe c = ProbeOutcome.fileNotFound ∨
        ∃ k, env.probe c = ProbeOutcome.exits k ∧ acceptableCode k = false) :
    main env args = RunOutcome.exits [Event.printErr volNotFoundMsg] 2
      ∧ ∀ e ∈ traceOf (main env args), isFsEvent e = false := by
  have hok : ∀ c ∈ CANDIDATE_CMDS, env.probe c ≠ ProbeOutcome.otherOSError := by
    intro c hc
    rcases h c hc with h1 | ⟨k, hk, -⟩
    · simp [h1]
    · simp [hk]
  have hspec : find_vol_spec env.probe CANDIDATE_CMDS = none := by
    rw [find_vol_spec_none_iff]
    intro c hc
    rcases h c hc with h1 | ⟨k, hk, hbad⟩
    · simp [acceptableOutcome, h1]
    · simp [acceptableOutcome, hk, hbad]
  have hnone : find_vol env.probe = .ok none := by
    rw [find_vol, find_volFrom_no_oserror hok, hspec]
  constructor
  · simp only [main, hnone]
  · intro e he
    simp only [main, hnone, traceOf, List.mem_cons, List.not_mem_nil, or_false] at he
    rw [he]
    rfl

/-- Evaluates `c1_tool_not_found_aborts_without_output` on a machine where no
candidate command exists at all. -/
theorem c1_witness :
    main envMissing argsOne = RunOutcome.exits [Event.printErr volNotFoundMsg] 2 :=
  (c1_tool_not_found_aborts_without_output envMissing argsOne
    (fun _ _ => Or.inl rfl)).1

/-- Claim C2: when no probe raises an unexpected error, the locator resolves
the candidates in the fixed order `vol`, `vol.py`, `volatility3`: it returns
exactly the first candidate whose probe process started and exited with one
of the two acceptable codes 0 or 1, and returns the "not found" indication
(`none`) exactly when no candidate qualifies. -/
theorem c2_locator_first_acceptable (probe : String → ProbeOutcome)
    (hok : ∀ c ∈ CANDIDATE_CMDS, probe c ≠ ProbeOutcome.otherOSError) :
    CANDIDATE_CMDS = ["vol", "vol.py", "volatility3"]
      ∧ (∀ o, acceptableOutcome o = true ↔
          ∃ k, o = ProbeOutcome.exits k ∧ (k = 0 ∨ k = 1))
      ∧ (∀ c, find_vol probe = .ok (some c) ↔
          ∃ l1 l2, CANDIDATE_CMDS = l1 ++ c :: l2
            ∧ acceptableOutcome (probe c) = true
            ∧ ∀ b ∈ l1, acceptableOutcome (probe b) = false)
      ∧ (find_vol probe = .ok none ↔
          ∀ c ∈ CANDIDATE_CMDS, acceptableOutcome (probe c) = false) := by
  refine ⟨rfl, ?_, ?_, ?_⟩
  · intro o
    cases o with
    | fileNotFound => simp [acceptableOutcome]
    | otherOSError => simp [acceptableOutcome]
    | exits k => simp [acceptableOutcome, acceptableCode]
  · intro c
    rw [find_vol, find_volFrom_no_oserror hok]
    simp only [Except.ok.injEq]
    exact find_vol_spec_some_iff
  · rw [find_vol, find_volFrom_no_oserror hok]
    simp only [Except.ok.injEq]
    exact find_vol_spec_none_iff

/-- Evaluates `c2_locator_first_acceptable` on a machine where `vol` is
absent and `vol.py` answers its help probe with exit code 1: the locator
resolves `vol.py`. -/
theorem c2_witness : find_vol probeVolPyOk = .ok (some "vol.py") :=
  ((c2_locator_first_acceptable probeVolPyOk (by decide)).2.2.1 "vol.py").mpr
    ⟨["vol"], ["volatility3"], rfl, by decide, by decide⟩

end MFTriage

namespace MFTriage

/-- Claim C3: for every plugin-name list, the run opens (creating fresh)
exactly one output file per entry of the list, in list order, and that file
is named by replacing the dot separators of the plugin name with
underscores. -/
theorem c3_one_output_file_per_entry (env : Env) (args : Args) (vol : String)
    (h : find_vol env.probe = .ok (some vol)) :
    (traceOf (main env args)).filterMap openTruncPath
        = args.plugins.map (pluginTarget args.outdir)
      ∧ ∀ plg : String, (sanitize plg).data
          = plg.data.map fun c => if c = '.' then '_' else c := by
  constructor
  · rw [main_found h]
    simp only [traceOf, successTrace, List.filterMap_append,
      loopEvents_filterMap_openTrunc]
    simp [openTruncPath]
  · intro plg
    rfl

/-- Evaluates `c3_one_output_file_per_entry` on a one-plugin run: exactly one
capture file is created, named from the plugin with dots replaced. -/
theorem c3_witness :
    (traceOf (main envFound argsOne)).filterMap openTruncPath
      = ["out/raw/windows_pslist.txt"] :=
  ((c3_one_output_file_per_entry envFound argsOne "vol" rfl).1).trans (by decide)

/-- Claim C4: per-plugin execution errors are non-fatal.  The behaviour of a run
is identical for any two environments that differ only in the child
exit codes of the child processes (the loop never branches on them), every plugin in the
list is attempted as a child process, and the run exits 0 on normal
completion regardless of individual plugin outcomes. -/
theorem c4_per_plugin_errors_nonfatal (env env2 : Env) (args : Args) (vol : String)
    (hp : env2.probe = env.probe) (hs : env2.stamp = env.stamp)
    (h : find_vol env.probe = .ok (some vol)) :
    main env2 args = main env args
      ∧ (traceOf (main env args)).filterMap spawnedPlugin? = args.plugins
      ∧ exitCode (main env args) = some 0 := by
  have h2 : find_vol env2.probe = .ok (some vol) := by rw [hp]; exact h
  refine ⟨?_, ?_, ?_⟩
  · rw [main_found h, main_found h2]
    unfold successTrace
    rw [hs, loopEvents_exec_irrel env2.exec env.exec]
  · rw [main_found h]
    simp only [traceOf, successTrace, List.filterMap_append,
      loopEvents_filterMap_spawned]
    simp [spawnedPlugin?]
  · rw [main_found h]
    rfl

/-- Evaluates `c4_per_plugin_errors_nonfatal` on two machines that agree
except that every plugin child fails with exit code 77 on one of them: the
runs are identical and exit 0. -/
theorem c4_witness :
    main envFound77 argsOne = main envFound argsOne
      ∧ exitCode (main envFound argsOne) = some 0 := by
  have h := c4_per_plugin_errors_nonfatal envFound envFound77 argsOne "vol" rfl rfl rfl
  exact ⟨h.1, h.2.2⟩

/-- Claim C5: every plugin of a run gets its capture file keyed by the
sanitized plugin name (each `.` separator replaced by `_`); for plugin names
made of alphanumerics and dot separators the sanitized key consists of
alphanumerics and underscores only, so the filename stays filesystem-safe. -/
theorem c5_sanitized_key (env : Env) (args : Args) (vol plg : String)
    (h : find_vol env.probe = .ok (some vol)) (hmem : plg ∈ args.plugins)
    (hchars : ∀ c ∈ plg.data, c.isAlphanum = true ∨ c = '.') :
    Event.openTrunc (pluginTarget args.outdir plg) ∈ traceOf (main env args)
      ∧ ∀ c ∈ (sanitize plg).data, c.isAlphanum = true ∨ c = '_' := by
  constructor
  · rw [main_found h]
    simp only [traceOf, successTrace]
    refine List.mem_append.mpr (Or.inl (List.mem_append.mpr (Or.inr ?_)))
    rw [loopEvents]
    exact List.mem_flatMap.mpr ⟨plg, hmem, by rw [pluginEvents_def]; simp⟩
  · intro c hc
    replace hc : c ∈ plg.data.map fun c => if c = '.' then '_' else c := hc
    rcases List.mem_map.mp hc with ⟨c0, hc0, rfl⟩
    rcases hchars c0 hc0 with ha | hdot
    · by_cases hd : c0 = '.'
      · rw [if_pos hd]
        exact Or.inr rfl
      · rw [if_neg hd]
        exact Or.inl ha
    · rw [if_pos hdot]
      exact Or.inr rfl

/-- Evaluates `c5_sanitized_key` on a one-plugin run: the capture file for
`windows.pslist` is opened at its sanitized path. -/
theorem c5_witness :
    Event.openTrunc (pluginTarget "out" "windows.pslist")
      ∈ traceOf (main envFound argsOne) :=
  (c5_sanitized_key envFound argsOne "vol" "windows.pslist" rfl (by decide)
    (by decide)).1

/-- Claim C6: `run_plugin` invokes the child with the argument list
`resolved command, "-f", image path, plugin name, extra arguments`, with its
standard output directed into the per-plugin output file — opened fresh,
truncating — and its standard error merged into standard output, closing the
file after the child has run to completion. -/
theorem c6_child_invocation (exec : List String → Int)
    (volcmd img plugin outpath : String) (kargs : Option (List String)) :
    run_plugin exec volcmd img plugin outpath kargs
      = ([Event.openTrunc outpath,
          Event.spawnWait ([volcmd, "-f", img, plugin] ++ extraArgs kargs)
            (Redirect.toFile outpath) Redirect.mergedToStdout,
          Event.closeFile outpath],
         ⟨exec ([volcmd, "-f", img, plugin] ++ extraArgs kargs)⟩) := by
  cases kargs with
  | none => rfl
  | some ks =>
    cases ks with
    | nil => rfl
    | cons a ks => rfl

end MFTriage

namespace MFTriage

/-- Claim C7: after all plugins have been attempted, the single
whole-file write replaces `INDEX.md` in the case directory with a document
made of the timestamped header, the image path, the resolved tool name, the
comma-joined plugin list, one output line per attempted plugin in supplied
order (independent of the execution outcome of each plugin), and the static quick
review hints block; this write comes after the whole plugin loop. -/
theorem c7_index_document (env : Env) (args : Args) (vol : String)
    (h : find_vol env.probe = .ok (some vol)) :
    traceOf (main env args)
        = ([Event.mkdirParents args.outdir, Event.mkdirExistOk (rawDir args.outdir)]
            ++ loopEvents env.exec vol args.file args.outdir args.plugins)
          ++ [Event.writeText (args.outdir ++ "/INDEX.md")
                (String.intercalate "\n"
                  (["# Memory Forensics Triage — " ++ env.stamp,
                    "- Image: `" ++ args.file ++ "`",
                    "- Volatility: `" ++ vol ++ "`",
                    "- Plugins: " ++ String.intercalate ", " args.plugins,
                    "",
                    "## Outputs"]
                    ++ args.plugins.map fun plg =>
                        "- `" ++ pluginTarget args.outdir plg ++ "`")
                  ++ "\n\n" ++ hintsText ++ "\n"),
              Event.printOut ("[✓] Case saved to: " ++ args.outdir)]
      ∧ (traceOf (main env args)).filterMap writeTextEvent?
          = [(indexPath args.outdir,
              indexDoc env.stamp args.file vol args.outdir args.plugins)] := by
  constructor
  · rw [main_found h]
    rfl
  · rw [main_found h]
    simp only [traceOf, successTrace, List.filterMap_append,
      loopEvents_filterMap_writeText]
    rfl

/-- Evaluates `c7_index_document` on a one-plugin run: the sole whole-file
write of the run is `INDEX.md` with the composed document. -/
theorem c7_witness :
    (traceOf (main envFound argsOne)).filterMap writeTextEvent?
      = [(indexPath "out",
          indexDoc "20240101-000000" "mem.raw" "vol" "out" ["windows.pslist"])] :=
  (c7_index_document envFound argsOne "vol" rfl).2

set_option maxRecDepth 4000 in
/-- Claim C8: with image `mem.raw`, output directory `cases/CASE001` and no
explicit plugin list, the run creates exactly the six default capture files
under `cases/CASE001/raw/`, writes `cases/CASE001/INDEX.md`, and the summary
the index is built from lists all six paths. -/
theorem c8_default_scenario :
    (traceOf (main envFound args08)).filterMap openTruncPath
        = ["cases/CASE001/raw/windows_pslist.txt",
           "cases/CASE001/raw/windows_pstree.txt",
           "cases/CASE001/raw/windows_netscan.txt",
           "cases/CASE001/raw/windows_dlllist.txt",
           "cases/CASE001/raw/windows_cmdline.txt",
           "cases/CASE001/raw/windows_malfind.txt"]
      ∧ (traceOf (main envFound args08)).filterMap writeTextEvent?
          = [("cases/CASE001/INDEX.md",
              indexDoc "20240101-000000" "mem.raw" "vol" "cases/CASE001"
                DEFAULT_PLUGINS)]
      ∧ (["cases/CASE001/raw/windows_pslist.txt",
          "cases/CASE001/raw/windows_pstree.txt",
          "cases/CASE001/raw/windows_netscan.txt",
          "cases/CASE001/raw/windows_dlllist.txt",
          "cases/CASE001/raw/windows_cmdline.txt",
          "cases/CASE001/raw/windows_malfind.txt"].all fun p =>
            (summaryLines "20240101-000000" "mem.raw" "vol" "cases/CASE001"
                DEFAULT_PLUGINS).contains ("- `" ++ p ++ "`")) = true := by
  refine ⟨by decide, by decide, by decide⟩

/-- Claim C9: in the locator, only a file-not-found failure is treated as
"candidate absent" and skipped; when probing reaches a candidate whose spawn
raises any other operating-system error, the exception escapes and the whole
program terminates abnormally — it neither prints the not-found guidance nor
exits with the not-found code, and performs no filesystem work. -/
theorem c9_non_fnf_oserror_uncaught (env : Env) (args : Args) (c : String)
    (l1 l2 : List String) (hsplit : CANDIDATE_CMDS = l1 ++ c :: l2)
    (hc : env.probe c = ProbeOutcome.otherOSError)
    (hskip : ∀ b ∈ l1, env.probe b = ProbeOutcome.fileNotFound ∨
        ∃ k, env.probe b = ProbeOutcome.exits k ∧ acceptableCode k = false) :
    main env args = RunOutcome.crash []
      ∧ main env args ≠ RunOutcome.exits [Event.printErr volNotFoundMsg] 2
      ∧ ∀ (probe : String → ProbeOutcome) (cand : String) (cs : List String),
          probe cand = ProbeOutcome.fileNotFound →
            find_volFrom probe (cand :: cs) = find_volFrom probe cs := by
  have herr : find_vol env.probe = .error () := by
    rw [find_vol, hsplit]
    clear hsplit
    induction l1 with
    | nil =>
      rw [List.nil_append]
      simp only [find_volFrom, hc]
    | cons b l1t ih =>
      have hb := hskip b (List.mem_cons_self _ _)
      rw [List.cons_append]
      rcases hb with h1 | ⟨k, hk, hbad⟩
      · simp only [find_volFrom, h1]
        exact ih fun x hx => hskip x (List.mem_cons_of_mem _ hx)
      · simp only [find_volFrom, hk]
        rw [if_neg (by simp [hbad])]
        exact ih fun x hx => hskip x (List.mem_cons_of_mem _ hx)
  refine ⟨?_, ?_, ?_⟩
  · simp only [main, herr]
  · simp only [main, herr]
    exact fun hcon => RunOutcome.noConfusion hcon
  · intro probe cand cs hfnf
    simp only [find_volFrom, hfnf]

/-- Evaluates `c9_non_fnf_oserror_uncaught` on a machine where `vol` is
absent and probing `vol.py` raises a permission-style error: the run
crashes. -/
theorem c9_witness : main envBlocked argsOne = RunOutcome.crash [] :=
  (c9_non_fnf_oserror_uncaught envBlocked argsOne "vol.py" ["vol"] ["volatility3"]
    rfl rfl
    (by intro b hb; rw [List.mem_singleton] at hb; rw [hb]; exact Or.inl rfl)).1

/-- Claim C10: the run writes `INDEX.md` with a single whole-file write that
comes only after the per-plugin loop has finished: no event before it — the
directory creations and every per-plugin open, spawn and close — touches the
index path, so an interruption mid-loop leaves any pre-existing index file
untouched. -/
theorem c10_index_written_once_after_loop (env : Env) (args : Args) (vol : String)
    (h : find_vol env.probe = .ok (some vol)) :
    traceOf (main env args)
        = ([Event.mkdirParents args.outdir, Event.mkdirExistOk (rawDir args.outdir)]
            ++ loopEvents env.exec vol args.file args.outdir args.plugins)
          ++ [Event.writeText (indexPath args.outdir)
                (indexDoc env.stamp args.file vol args.outdir args.plugins),
              Event.printOut ("[✓] Case saved to: " ++ args.outdir)]
      ∧ ∀ e ∈ [Event.mkdirParents args.outdir, Event.mkdirExistOk (rawDir args.outdir)]
            ++ loopEvents env.exec vol args.file args.outdir args.plugins,
          ∀ q, eventPath e = some q → q ≠ indexPath args.outdir := by
  constructor
  · rw [main_found h]
    rfl
  · intro e he q hq
    rw [List.mem_append] at he
    rcases he with hpre | hloop
    · simp only [List.mem_cons, List.not_mem_nil, or_false] at hpre
      rcases hpre with rfl | rfl
      · simp only [eventPath, Option.some.injEq] at hq
        rw [← hq]
        exact outdir_ne_indexPath args.outdir
      · simp only [eventPath, Option.some.injEq] at hq
        rw [← hq]
        exact rawDir_ne_indexPath args.outdir
    · obtain ⟨plg, -, rfl⟩ := loopEvents_mem_path hloop hq
      exact pluginTarget_ne_indexPath args.outdir plg

/-- Evaluates `c10_index_written_once_after_loop` on a one-plugin run: the
trace is the loop body followed by the single index write and the closing
print. -/
theorem c10_witness :
    traceOf (main envFound argsOne)
      = ([Event.mkdirParents "out", Event.mkdirExistOk (rawDir "out")]
          ++ loopEvents envFound.exec "vol" "mem.raw" "out" ["windows.pslist"])
        ++ [Event.writeText (indexPath "out")
              (indexDoc "20240101-000000" "mem.raw" "vol" "out" ["windows.pslist"]),
            Event.printOut ("[✓] Case saved to: " ++ "out")] :=
  (c10_index_written_once_after_loop envFound argsOne "vol" rfl).1

end MFTriage
